import Mathlib

/-!
Shallow embedding of `src/readable/into_stream.rs` from `wasm-streams`:
the `IntoStream` adapter that turns a `ReadableStreamDefaultReader` into a
`futures::Stream`.

Modelling conventions:
- `JsValue` is an arbitrary type parameter `J`; chunk values and error values
  are both `J`, as in the source where both are `JsValue`.
- The reader handle and the in-flight `JsFuture` are foreign objects whose
  content the adapter never inspects, so they are modelled as `Option Unit`
  slots (`reader`, `fut`), exactly mirroring the two fields of the struct.
- The behaviour of the foreign objects is supplied by the environment at each
  call: polling the stored future yields a `FutAnswer` (still pending, or
  settled with `Ok(js_value)` / `Err(js_value)`), and the reader's `cancel`
  results are passed in as arguments.
- Side effects on the reader are made observable in the return values:
  `poll_next` additionally returns whether this invocation called
  `reader.read()`, and the cancellation paths return whether (and with which
  reason) the reader's cancel was invoked.
-/

namespace WasmStreams

/-- The `{done, value}` pair obtained by interpreting a settled read promise
through `ReadableStreamReadResult` (`result.is_done()`, `result.value()`). -/
structure ReadableStreamReadResult (J : Type) where
  is_done : Bool
  value : J
  deriving DecidableEq, Repr

/-- Rust's `Poll`: either `Poll::Pending` (suspend) or `Poll::Ready x`. -/
inductive Poll (β : Type) where
  | pending
  | ready (x : β)
  deriving DecidableEq, Repr

/-- True exactly on `Poll.pending`. -/
def Poll.isPending {β : Type} : Poll β → Bool
  | Poll.pending => true
  | Poll.ready _ => false

/-- Equality of `Except` values is decidable when it is on both components. -/
instance exceptDecEq {ε α : Type} [DecidableEq ε] [DecidableEq α] :
    DecidableEq (Except ε α) := fun x y =>
  match x, y with
  | Except.ok a, Except.ok b =>
      if h : a = b then isTrue (h ▸ rfl)
      else isFalse (fun hx => h (Except.ok.inj hx))
  | Except.ok _, Except.error _ => isFalse (fun hx => Except.noConfusion hx)
  | Except.error _, Except.ok _ => isFalse (fun hx => Except.noConfusion hx)
  | Except.error e, Except.error f =>
      if h : e = f then isTrue (h ▸ rfl)
      else isFalse (fun hx => h (Except.error.inj hx))

/-- The environment's answer when the adapter polls its stored `JsFuture`:
the underlying promise has not settled yet, or it settled with
`Ok(js_value)` or `Err(js_value)`. -/
inductive FutAnswer (J : Type) where
  | pending
  | resolved (r : Except J (ReadableStreamReadResult J))
  deriving DecidableEq, Repr

/-- The adapter state: `reader: Option<ReadableStreamDefaultReader>`,
`fut: Option<JsFuture>`, `cancel_on_drop: bool`. The two handles are foreign
objects the adapter never inspects, so each is modelled as an `Option Unit`
slot. -/
structure IntoStream where
  reader : Option Unit
  fut : Option Unit
  cancel_on_drop : Bool
  deriving DecidableEq, Repr

namespace IntoStream

/-- `IntoStream::new(reader, cancel_on_drop)`: starts with the reader present
and no pending read. -/
def new (cancel_on_drop : Bool) : IntoStream :=
  { reader := some (), fut := none, cancel_on_drop := cancel_on_drop }

/-- `FusedStream::is_terminated`: `self.reader.is_none() && self.fut.is_none()`. -/
def is_terminated (s : IntoStream) : Bool :=
  s.reader.isNone && s.fut.isNone

/-- The items of the stream: `Option<Result<JsValue, JsValue>>`, where `none`
is end-of-sequence. -/
def Item (J : Type) : Type := Option (Except J J)

/-- The part of `poll_next` from the `ready!` on: poll the stored future with
the environment's answer `ans`; on `Pending` return `Poll::Pending` leaving the
future in place, otherwise clear `fut` and translate the settled result
(`is_done` ⇒ drop the reader and end the stream; a value ⇒ emit `Ok(value)`;
`Err` ⇒ drop the reader and emit `Err(e)`). `issued` records whether the
enclosing invocation called `reader.read()`. -/
def pollFut {J : Type} (s : IntoStream) (ans : FutAnswer J) (issued : Bool) :
    Poll (Item J) × IntoStream × Bool :=
  match ans with
  | FutAnswer.pending => (Poll.pending, s, issued)
  | FutAnswer.resolved js_result =>
      let s1 : IntoStream := { s with fut := none }
      match js_result with
      | Except.ok result =>
          if result.is_done then
            (Poll.ready none, { s1 with reader := none }, issued)
          else
            (Poll.ready (some (Except.ok result.value)), s1, issued)
      | Except.error js_value =>
          (Poll.ready (some (Except.error js_value)), { s1 with reader := none }, issued)

/-- One invocation of `Stream::poll_next` (lines 71-109 of the source). If no
read is pending: with a reader present, call `reader.read()` and store the
future (then fall through to polling it); with no reader, return
`Poll::Ready(None)`. Otherwise poll the pending future. Returns the poll
output, the post-state, and whether this invocation called `reader.read()`. -/
def poll_next {J : Type} (s : IntoStream) (ans : FutAnswer J) :
    Poll (Item J) × IntoStream × Bool :=
  match s.fut with
  | none =>
      match s.reader with
      | some _ => pollFut { s with fut := some () } ans true
      | none => (Poll.ready none, s, false)
  | some _ => pollFut s ans false

/-- `IntoStream::cancel`: take the reader; if one was present, await its
`cancel` (result `readerCancel` supplied by the environment), otherwise return
`Ok(())`. Returns the result, the state of `self` at the end of the async body
(just before `self` is dropped), and whether the reader's cancel was invoked. -/
def cancel {J : Type} (s : IntoStream) (readerCancel : Except J Unit) :
    Except J Unit × IntoStream × Bool :=
  match s.reader with
  | some _ => (readerCancel, { s with reader := none }, true)
  | none => (Except.ok (), s, false)

/-- `IntoStream::cancel_with_reason`: like `cancel` but forwards the caller's
`reason` to the reader's `cancel_with_reason` (modelled as the environment
function `readerCancel`). The last component records the reason forwarded to
the reader, `none` when the reader was not invoked. -/
def cancel_with_reason {J : Type} (s : IntoStream) (reason : J)
    (readerCancel : J → Except J Unit) :
    Except J Unit × IntoStream × Bool × Option J :=
  match s.reader with
  | some _ => (readerCancel reason, { s with reader := none }, true, some reason)
  | none => (Except.ok (), s, false, none)

/-- `Drop::drop` (lines 112-120): if `cancel_on_drop` and a reader is still
present, issue one fire-and-forget `cancel()` request on the raw reader; its
eventual outcome `_outcome` is discarded by `let _ = ... .catch(...)`.
Returns the unit result of drop together with the number of cancellation
requests issued. -/
def drop {J : Type} (s : IntoStream) (_outcome : Except J Unit) : Unit × Nat :=
  if s.cancel_on_drop then
    match s.reader with
    | some _ => ((), 1)
    | none => ((), 0)
  else ((), 0)

/-- Drive the adapter through one `poll_next` invocation per environment
answer, collecting the poll outputs, the final state, and the total number of
`reader.read()` calls issued. -/
def run {J : Type} (s : IntoStream) (answers : List (FutAnswer J)) :
    List (Poll (Item J)) × IntoStream × Nat :=
  match answers with
  | [] => ([], s, 0)
  | a :: rest =>
      let p := poll_next s a
      let t := run p.2.1 rest
      (p.1 :: t.1, t.2.1, (if p.2.2 then 1 else 0) + t.2.2)

/-- Environment answer: the pending read settled with a chunk `{done: false, value: v}`. -/
def valAnswer {J : Type} (v : J) : FutAnswer J :=
  FutAnswer.resolved (Except.ok { is_done := false, value := v })

/-- Environment answer: the pending read settled with `{done: true, value: v}`. -/
def doneAnswer {J : Type} (v : J) : FutAnswer J :=
  FutAnswer.resolved (Except.ok { is_done := true, value := v })

/-- Environment answer: the pending read rejected with error `e`. -/
def errAnswer {J : Type} (e : J) : FutAnswer J :=
  FutAnswer.resolved (Except.error e)

/-- Poll output: the stream yielded the item `Ok(v)`. -/
def valItem {J : Type} (v : J) : Poll (Item J) :=
  Poll.ready (some (Except.ok v))

/-- Poll output: the stream yielded the item `Err(e)`. -/
def errItem {J : Type} (e : J) : Poll (Item J) :=
  Poll.ready (some (Except.error e))

/-- Poll output: end of sequence (`Poll::Ready(None)`). -/
def endItem {J : Type} : Poll (Item J) :=
  Poll.ready none

/-- The terminated adapter state with configuration `c`. -/
def terminal (c : Bool) : IntoStream :=
  { reader := none, fut := none, cancel_on_drop := c }

end IntoStream

/-- The three states of the spec's state machine. -/
inductive AdapterState where
  | idle
  | reading
  | terminated
  deriving DecidableEq, Repr

/-- Classify an adapter state: Reading while a read is pending, otherwise Idle
while the reader is present, otherwise Terminated (`reader == none` and
`pending == none`). -/
def stClass (s : IntoStream) : AdapterState :=
  if s.fut.isSome then AdapterState.reading
  else if s.reader.isSome then AdapterState.idle
  else AdapterState.terminated

/-- The five transitions of the spec's state machine. -/
inductive SpecTransition where
  | idleToReading
  | idleToTerminated
  | readingToReading
  | readingToIdle
  | readingToTerminated
  deriving DecidableEq, Repr

/-- The firing condition of each transition, read off the spec's own
description ("on poll, if ..."): `idleToReading` when no read is pending and a
reader is present; `idleToTerminated` when no read is pending and no reader is
present; the `reading*` transitions when a read is pending, split on how the
polled read settles (still pending / a chunk / done-or-error). -/
def fires {J : Type} (t : SpecTransition) (s : IntoStream) (ans : FutAnswer J) : Bool :=
  match t with
  | SpecTransition.idleToReading => s.fut.isNone && s.reader.isSome
  | SpecTransition.idleToTerminated => s.fut.isNone && s.reader.isNone
  | SpecTransition.readingToReading =>
      s.fut.isSome && (match ans with
        | FutAnswer.pending => true
        | FutAnswer.resolved _ => false)
  | SpecTransition.readingToIdle =>
      s.fut.isSome && (match ans with
        | FutAnswer.resolved (Except.ok r) => !r.is_done
        | _ => false)
  | SpecTransition.readingToTerminated =>
      s.fut.isSome && (match ans with
        | FutAnswer.resolved (Except.ok r) => r.is_done
        | FutAnswer.resolved (Except.error _) => true
        | FutAnswer.pending => false)

/-- The state a spec transition ends in. -/
def targetState : SpecTransition → AdapterState
  | SpecTransition.idleToReading => AdapterState.reading
  | SpecTransition.idleToTerminated => AdapterState.terminated
  | SpecTransition.readingToReading => AdapterState.reading
  | SpecTransition.readingToIdle => AdapterState.idle
  | SpecTransition.readingToTerminated => AdapterState.terminated

/-- A terminated adapter answers every poll with `Poll::Ready(None)`, leaves
its state unchanged, and issues no read. -/
theorem poll_next_terminated {J : Type} (s : IntoStream) (ans : FutAnswer J)
    (h : s.is_terminated = true) :
    s.poll_next ans = (IntoStream.endItem, s, false) := by
  obtain ⟨r, f, c⟩ := s
  cases r <;> cases f <;>
    simp_all [IntoStream.is_terminated, IntoStream.poll_next, IntoStream.endItem]

/-- Running any number of polls from a terminated adapter yields only
end-of-sequence outputs, no state change and no reads. -/
theorem run_terminated {J : Type} (s : IntoStream) (l : List (FutAnswer J))
    (h : s.is_terminated = true) :
    s.run l = (List.replicate l.length IntoStream.endItem, s, 0) := by
  induction l with
  | nil => simp [IntoStream.run]
  | cons a rest ih =>
      simp [IntoStream.run, poll_next_terminated s a h, ih, IntoStream.endItem,
        List.replicate_succ]

/-- From the idle state, a prefix of reads that each settle with a chunk
produces exactly those chunks as `Ok` items, one read per poll, and returns to
the idle state before the remaining answers are processed. -/
theorem run_idle_values {J : Type} (c : Bool) (vs : List J)
    (rest : List (FutAnswer J)) :
    IntoStream.run (IntoStream.new c) (vs.map IntoStream.valAnswer ++ rest)
      = (vs.map IntoStream.valItem ++ (IntoStream.run (IntoStream.new c) rest).1,
         (IntoStream.run (IntoStream.new c) rest).2.1,
         vs.length + (IntoStream.run (IntoStream.new c) rest).2.2) := by
  induction vs with
  | nil => simp [IntoStream.run]
  | cons v tl ih =>
      have step : IntoStream.poll_next (IntoStream.new c) (IntoStream.valAnswer v)
          = (IntoStream.valItem v, IntoStream.new c, true) := rfl
      simp only [List.map_cons, List.cons_append, List.length_cons, IntoStream.run,
        step, List.append_eq]
      rw [ih]
      simp [IntoStream.valItem]
      omega

/-- Reachable-state invariant: a read is only ever pending while the reader is
still held. `poll_next` stores a future only when the reader is present, and
whenever it drops the reader it has already cleared the future. -/
theorem poll_next_preserves_reader_inv {J : Type} (s : IntoStream) (ans : FutAnswer J)
    (h : s.fut.isSome = true → s.reader.isSome = true) :
    (IntoStream.poll_next s ans).2.1.fut.isSome = true →
    (IntoStream.poll_next s ans).2.1.reader.isSome = true := by
  obtain ⟨r, f, c⟩ := s
  cases r <;> cases f <;> rcases ans with _ | (e | ⟨d, v⟩) <;> (try cases d) <;>
    simp_all [IntoStream.poll_next, IntoStream.pollFut]

/-- The fresh adapter satisfies the reachable-state invariant. -/
theorem new_reader_inv (c : Bool) :
    (IntoStream.new c).fut.isSome = true → (IntoStream.new c).reader.isSome = true :=
  fun _ => rfl

/-- C1: for every finite sequence of reads that ends with a `done=true`
result, repeatedly polling the adapter yields exactly the non-terminal values
in order as `Ok` items, then exactly one end-of-sequence result, then
end-of-sequence again on each of the `k` later polls (whatever the
environment answers there); the adapter ends terminated, having issued one
read per settled result, and `is_terminated` is true from the end-of-sequence
result on. -/
theorem C1_values_then_done {J : Type} (c : Bool) (vs : List J) (d : J) (k : Nat)
    (pad : FutAnswer J) :
    IntoStream.run (IntoStream.new c)
        (vs.map IntoStream.valAnswer ++ IntoStream.doneAnswer d :: List.replicate k pad)
      = (vs.map IntoStream.valItem
          ++ IntoStream.endItem :: List.replicate k IntoStream.endItem,
         IntoStream.terminal c, vs.length + 1)
    ∧ (IntoStream.run (IntoStream.new c)
        (vs.map IntoStream.valAnswer
          ++ IntoStream.doneAnswer d :: List.replicate k pad)).2.1.is_terminated = true := by
  have hterm : (IntoStream.terminal c).is_terminated = true := rfl
  have hstep : IntoStream.poll_next (IntoStream.new c) (IntoStream.doneAnswer d)
      = (IntoStream.endItem, IntoStream.terminal c, true) := rfl
  have htail : IntoStream.run (IntoStream.new c)
      (IntoStream.doneAnswer d :: List.replicate k pad)
      = (IntoStream.endItem :: List.replicate k IntoStream.endItem,
         IntoStream.terminal c, 1) := by
    simp [IntoStream.run, hstep,
      run_terminated (IntoStream.terminal c) (List.replicate k pad) hterm]
  have h := run_idle_values c vs (IntoStream.doneAnswer d :: List.replicate k pad)
  rw [htail] at h
  simp only [] at h
  exact ⟨h, by rw [h]; exact hterm⟩

/-- C2: for every sequence of reads whose k-th read settles with an error,
polling the adapter yields the first k−1 values in order, then exactly one
error item, then end-of-sequence on each later poll; the adapter ends
terminated after exactly k reads, and a terminated adapter issues no further
reads at all. -/
theorem C2_error_terminates {J : Type} (c : Bool) (vs : List J) (e : J) (k : Nat)
    (pad : FutAnswer J) :
    IntoStream.run (IntoStream.new c)
        (vs.map IntoStream.valAnswer ++ IntoStream.errAnswer e :: List.replicate k pad)
      = (vs.map IntoStream.valItem
          ++ IntoStream.errItem e :: List.replicate k IntoStream.endItem,
         IntoStream.terminal c, vs.length + 1)
    ∧ (IntoStream.run (IntoStream.terminal c) (List.replicate k pad)).2.2 = 0 := by
  have hterm : (IntoStream.terminal c).is_terminated = true := rfl
  have hstep : IntoStream.poll_next (IntoStream.new c) (IntoStream.errAnswer e)
      = (IntoStream.errItem e, IntoStream.terminal c, true) := rfl
  have htail : IntoStream.run (IntoStream.new c)
      (IntoStream.errAnswer e :: List.replicate k pad)
      = (IntoStream.errItem e :: List.replicate k IntoStream.endItem,
         IntoStream.terminal c, 1) := by
    simp [IntoStream.run, hstep,
      run_terminated (IntoStream.terminal c) (List.replicate k pad) hterm]
  have h := run_idle_values c vs (IntoStream.errAnswer e :: List.replicate k pad)
  rw [htail] at h
  simp only [] at h
  refine ⟨h, ?_⟩
  rw [run_terminated (IntoStream.terminal c) (List.replicate k pad) hterm]

/-- C3: every invocation of `poll_next` fires exactly one of the five spec
transitions and moves the adapter to that transition's target state. The two
hypotheses are facts about the real collaborators: a read is only pending
while the reader is held (the reachable-state invariant, see
`poll_next_preserves_reader_inv`), and a `JsFuture` created within this very
invocation cannot already be settled, because promise callbacks only run in a
later microtask. -/
theorem C3_exactly_one_transition {J : Type} (s : IntoStream) (ans : FutAnswer J)
    (hinv : s.fut.isSome = true → s.reader.isSome = true)
    (hfresh : s.fut = none → s.reader.isSome = true → ans = FutAnswer.pending) :
    (∃ t, fires t s ans = true ∧ ∀ u, fires u s ans = true → u = t)
    ∧ (∀ t, fires t s ans = true →
        stClass (IntoStream.poll_next s ans).2.1 = targetState t) := by
  obtain ⟨r, f, c⟩ := s
  cases f with
  | none =>
      cases r with
      | some u =>
          cases u
          have hans : ans = FutAnswer.pending := hfresh rfl rfl
          subst hans
          refine ⟨⟨SpecTransition.idleToReading, rfl, ?_⟩, ?_⟩
          · intro u hu
            cases u <;> simp_all [fires]
          · intro t ht
            cases t <;>
              simp_all [fires, stClass, targetState, IntoStream.poll_next,
                IntoStream.pollFut]
      | none =>
          refine ⟨⟨SpecTransition.idleToTerminated, rfl, ?_⟩, ?_⟩
          · intro u hu
            cases u <;> simp_all [fires]
          · intro t ht
            cases t <;>
              simp_all [fires, stClass, targetState, IntoStream.poll_next,
                IntoStream.pollFut]
  | some u =>
      cases u
      have hr : r.isSome = true := hinv rfl
      cases r with
      | none => simp at hr
      | some u2 =>
          cases u2
          rcases ans with _ | (e | ⟨d, v⟩)
          · refine ⟨⟨SpecTransition.readingToReading, rfl, ?_⟩, ?_⟩
            · intro u hu
              cases u <;> simp_all [fires]
            · intro t ht
              cases t <;>
                simp_all [fires, stClass, targetState, IntoStream.poll_next,
                  IntoStream.pollFut]
          · refine ⟨⟨SpecTransition.readingToTerminated, rfl, ?_⟩, ?_⟩
            · intro u hu
              cases u <;> simp_all [fires]
            · intro t ht
              cases t <;>
                simp_all [fires, stClass, targetState, IntoStream.poll_next,
                  IntoStream.pollFut]
          · cases d
            · refine ⟨⟨SpecTransition.readingToIdle, rfl, ?_⟩, ?_⟩
              · intro u hu
                cases u <;> simp_all [fires]
              · intro t ht
                cases t <;>
                  simp_all [fires, stClass, targetState, IntoStream.poll_next,
                    IntoStream.pollFut]
            · refine ⟨⟨SpecTransition.readingToTerminated, rfl, ?_⟩, ?_⟩
              · intro u hu
                cases u <;> simp_all [fires]
              · intro t ht
                cases t <;>
                  simp_all [fires, stClass, targetState, IntoStream.poll_next,
                    IntoStream.pollFut]

/-- Witness for C3: the freshly constructed adapter polled with a
still-pending answer fires exactly one transition. -/
theorem C3_exactly_one_transition_witness :
    ((IntoStream.new true).fut.isSome = true → (IntoStream.new true).reader.isSome = true)
    ∧ ((IntoStream.new true).fut = none → (IntoStream.new true).reader.isSome = true →
        (FutAnswer.pending : FutAnswer Nat) = FutAnswer.pending)
    ∧ ((∃ t, fires t (IntoStream.new true) (FutAnswer.pending : FutAnswer Nat) = true
          ∧ ∀ u, fires u (IntoStream.new true) (FutAnswer.pending : FutAnswer Nat) = true → u = t)
        ∧ (∀ t, fires t (IntoStream.new true) (FutAnswer.pending : FutAnswer Nat) = true →
            stClass (IntoStream.poll_next (IntoStream.new true)
              (FutAnswer.pending : FutAnswer Nat)).2.1 = targetState t)) :=
  ⟨fun _ => rfl, fun _ _ => rfl,
    C3_exactly_one_transition (IntoStream.new true) FutAnswer.pending
      (fun _ => rfl) (fun _ _ => rfl)⟩

/-- C4: `cancel` takes the reader; when one is present it invokes and awaits
the reader's cancel and returns that result, otherwise it returns `Ok(())`
without touching any reader. `cancel_with_reason` behaves identically except
that it forwards the caller's reason to the reader's cancel (the last
component records the forwarded reason, `none` when no reader was invoked). -/
theorem C4_cancel_paths {J : Type} (s : IntoStream) (r : Except J Unit)
    (reason : J) (rc : J → Except J Unit) :
    IntoStream.cancel s r
      = (if s.reader.isSome then r else Except.ok (),
         { s with reader := none }, s.reader.isSome)
    ∧ IntoStream.cancel_with_reason s reason rc
      = (if s.reader.isSome then rc reason else Except.ok (),
         { s with reader := none }, s.reader.isSome,
         if s.reader.isSome then some reason else none) := by
  obtain ⟨r0, f, c⟩ := s
  cases r0 <;> simp [IntoStream.cancel, IntoStream.cancel_with_reason]

/-- C5: termination (`reader == none` and `fut == none`) is monotonic: a
terminated adapter answers every poll with end-of-sequence, unchanged state
and no read; it stays terminated through `poll_next` and through `cancel`;
`drop` issues no cancellation request on it; and any number of further polls
yield only end-of-sequence with no reads. -/
theorem C5_termination_monotonic {J : Type} (s : IntoStream) (ans : FutAnswer J)
    (r : Except J Unit) (l : List (FutAnswer J))
    (h : s.is_terminated = true) :
    IntoStream.poll_next s ans = (IntoStream.endItem, s, false)
    ∧ (IntoStream.poll_next s ans).2.1.is_terminated = true
    ∧ (IntoStream.cancel s r).2.1.is_terminated = true
    ∧ (IntoStream.drop s r).2 = 0
    ∧ IntoStream.run s l = (List.replicate l.length IntoStream.endItem, s, 0) := by
  have hp := poll_next_terminated s ans h
  refine ⟨hp, ?_, ?_, ?_, run_terminated s l h⟩
  · rw [hp]
    exact h
  · obtain ⟨r0, f, c⟩ := s
    cases r0 <;> simp_all [IntoStream.is_terminated, IntoStream.cancel]
  · obtain ⟨r0, f, c⟩ := s
    cases r0 <;> simp_all [IntoStream.is_terminated, IntoStream.drop]

/-- Witness for C5 at the concrete terminated adapter. -/
theorem C5_termination_monotonic_witness :
    (IntoStream.terminal true).is_terminated = true
    ∧ (IntoStream.poll_next (IntoStream.terminal true) (FutAnswer.pending : FutAnswer Nat)
        = (IntoStream.endItem, IntoStream.terminal true, false)
      ∧ (IntoStream.poll_next (IntoStream.terminal true)
          (FutAnswer.pending : FutAnswer Nat)).2.1.is_terminated = true
      ∧ (IntoStream.cancel (IntoStream.terminal true)
          (Except.ok () : Except Nat Unit)).2.1.is_terminated = true
      ∧ (IntoStream.drop (IntoStream.terminal true) (Except.ok () : Except Nat Unit)).2 = 0
      ∧ IntoStream.run (IntoStream.terminal true) ([] : List (FutAnswer Nat))
          = (List.replicate (0 : Nat) IntoStream.endItem, IntoStream.terminal true, 0)) :=
  ⟨rfl, C5_termination_monotonic (IntoStream.terminal true) FutAnswer.pending
    (Except.ok () : Except Nat Unit) [] rfl⟩

/-- C6: an invocation of `poll_next` calls `reader.read()` exactly when no
read is pending and the reader is present: never while a read is outstanding
(so, as the `Option` slot also enforces, at most one read is ever
outstanding), and never once the reader is gone. -/
theorem C6_read_issue_condition {J : Type} (s : IntoStream) (ans : FutAnswer J) :
    (IntoStream.poll_next s ans).2.2 = (s.fut.isNone && s.reader.isSome) := by
  obtain ⟨r, f, c⟩ := s
  cases r <;> cases f <;> rcases ans with _ | (e | ⟨d, v⟩) <;> (try cases d) <;>
    simp [IntoStream.poll_next, IntoStream.pollFut]

/-- C7: on drop, a cancellation request is issued exactly when
`cancel_on_drop` is set and a reader is still present (then exactly one), the
drop returns unit regardless, and the request's eventual outcome does not
appear in the result at all — it is silently discarded. -/
theorem C7_drop_fire_and_forget {J : Type} (s : IntoStream) (outcome : Except J Unit) :
    IntoStream.drop s outcome
      = ((), if s.cancel_on_drop && s.reader.isSome then 1 else 0) := by
  obtain ⟨r0, f, c⟩ := s
  cases r0 <;> cases c <;> simp [IntoStream.drop]

/-- C8: the pending slot holds a future after an invocation exactly when that
invocation returned `Poll::Pending`; whenever an item, error or termination is
reported (`Poll::Ready`), the slot has already been cleared. -/
theorem C8_pending_cleared_before_report {J : Type} (s : IntoStream) (ans : FutAnswer J) :
    (IntoStream.poll_next s ans).2.1.fut.isSome
      = ((IntoStream.poll_next s ans).1).isPending := by
  obtain ⟨r, f, c⟩ := s
  cases r <;> cases f <;> rcases ans with _ | (e | ⟨d, v⟩) <;> (try cases d) <;>
    simp [IntoStream.poll_next, IntoStream.pollFut, Poll.isPending]

/-- C9: when a read settles with `done=true`, `poll_next` reports
end-of-sequence and the accompanying value `v` is discarded: the output is
literally `Ready(None)` and the post-state retains nothing, whatever the
prior state was. -/
theorem C9_done_value_discarded {J : Type} (s : IntoStream) (v : J) :
    IntoStream.poll_next s (IntoStream.doneAnswer v)
      = (Poll.ready none, IntoStream.terminal s.cancel_on_drop,
         s.fut.isNone && s.reader.isSome) := by
  obtain ⟨r, f, c⟩ := s
  cases r <;> cases f <;>
    simp [IntoStream.poll_next, IntoStream.pollFut, IntoStream.doneAnswer,
      IntoStream.terminal]

/-- C10: across explicit cancellation followed by drop, the reader's cancel is
invoked at most once: the state `cancel` (or `cancel_with_reason`) leaves
behind never triggers a drop-time cancellation request, so the combined count
of reader-cancel interactions is at most one. -/
theorem C10_cancel_at_most_once {J : Type} (s : IntoStream) (rc rd : Except J Unit)
    (reason : J) (rcf : J → Except J Unit) :
    (IntoStream.drop (IntoStream.cancel s rc).2.1 rd).2 = 0
    ∧ (if (IntoStream.cancel s rc).2.2 then 1 else 0)
        + (IntoStream.drop (IntoStream.cancel s rc).2.1 rd).2 ≤ 1
    ∧ (IntoStream.drop (IntoStream.cancel_with_reason s reason rcf).2.1 rd).2 = 0
    ∧ (if (IntoStream.cancel_with_reason s reason rcf).2.2.1 then 1 else 0)
        + (IntoStream.drop (IntoStream.cancel_with_reason s reason rcf).2.1 rd).2 ≤ 1 := by
  obtain ⟨r0, f, c⟩ := s
  cases r0 <;> cases c <;>
    simp [IntoStream.cancel, IntoStream.cancel_with_reason, IntoStream.drop]

end WasmStreams
